import Mathlib

/-!
# Verification of StreamlitAuthManager

Shallow embedding of `src/StreamlitAuthManager.py` (class `AuthManager`):
password hashing (SHA-256 hex digest), credential verification against a
relational table, issuance/validation of signed timed tokens, and a
cookie-backed session store, together with proofs of the specified
properties.

Machine integers are modelled as `Nat` with explicit reduction modulo
`2 ^ 32` where the source's arithmetic is 32-bit.  Python exceptions are
modelled with `Except`; the wall clock is an explicit `Nat` parameter.
-/

set_option maxRecDepth 100000

namespace AuthManager

/-! ## SHA-256 (embedding of `hashlib.sha256(...).hexdigest()`)

`hash_password` calls `hashlib.sha256(password.encode()).hexdigest()`.
We embed SHA-256 itself (FIPS 180-4) over byte lists, with all word
arithmetic reduced modulo `2 ^ 32`. -/

def pow32 : Nat := 4294967296

/-- Right rotation (32-bit)  by `n` of `x < 2 ^ 32`. -/
def rotr (n x : Nat) : Nat := (x / 2 ^ n + x % 2 ^ n * 2 ^ (32 - n)) % pow32

/-- Logical right shift. -/
def shr (n x : Nat) : Nat := x / 2 ^ n

def bigSigma0 (x : Nat) : Nat := rotr 2 x ^^^ (rotr 13 x ^^^ rotr 22 x)

def bigSigma1 (x : Nat) : Nat := rotr 6 x ^^^ (rotr 11 x ^^^ rotr 25 x)

def smallSigma0 (x : Nat) : Nat := rotr 7 x ^^^ (rotr 18 x ^^^ shr 3 x)

def smallSigma1 (x : Nat) : Nat := rotr 17 x ^^^ (rotr 19 x ^^^ shr 10 x)

/-- SHA-256 choice function `(x ∧ y) ⊕ (¬x ∧ z)` on 32-bit words. -/
def chFn (x y z : Nat) : Nat := x &&& y ^^^ (x ^^^ (pow32 - 1)) &&& z

/-- SHA-256 majority function. -/
def majFn (x y z : Nat) : Nat := x &&& y ^^^ (x &&& z ^^^ y &&& z)

/-- The 64 SHA-256 round constants. -/
def roundK : List Nat :=
  [1116352408, 1899447441, 3049323471, 3921009573, 961987163,
   1508970993, 2453635748, 2870763221, 3624381080, 310598401,
   607225278, 1426881987, 1925078388, 2162078206, 2614888103,
   3248222580, 3835390401, 4022224774, 264347078, 604807628,
   770255983, 1249150122, 1555081692, 1996064986, 2554220882,
   2821834349, 2952996808, 3210313671, 3336571891, 3584528711,
   113926993, 338241895, 666307205, 773529912, 1294757372,
   1396182291, 1695183700, 1986661051, 2177026350, 2456956037,
   2730485921, 2820302411, 3259730800, 3345764771, 3516065817,
   3600352804, 4094571909, 275423344, 430227734, 506948616,
   659060556, 883997877, 958139571, 1322822218, 1537002063,
   1747873779, 1955562222, 2024104815, 2227730452, 2361852424,
   2428436474, 2756734187, 3204031479, 3329325298]

/-- The initial SHA-256 hash state. -/
def initH : List Nat :=
  [1779033703, 3144134277, 1013904242, 2773480762,
   1359893119, 2600822924, 528734635, 1541459225]

/-- The `k` big-endian bytes of `n`. -/
def beBytes : Nat → Nat → List Nat
  | 0, _ => []
  | k + 1, n => n / 2 ^ (8 * k) % 256 :: beBytes k n

/-- SHA-256 padding: append `0x80`, zeros to 56 mod 64, then the 64-bit
big-endian bit length. -/
def padBytes (msg : List Nat) : List Nat :=
  msg ++ 128 :: List.replicate ((119 - msg.length % 64) % 64) 0 ++
    beBytes 8 (8 * msg.length)

/-- Group bytes into big-endian 32-bit words. -/
def bytesToWords : List Nat → List Nat
  | a :: b :: c :: d :: rest =>
      (((a * 256 + b) * 256 + c) * 256 + d) :: bytesToWords rest
  | _ => []

/-- Split a word list into 16-word blocks (`fuel` bounds the recursion so the
definition stays structural; callers pass the list length). -/
def toBlocks : Nat → List Nat → List (List Nat)
  | 0, _ => []
  | _, [] => []
  | fuel + 1, ws => ws.take 16 :: toBlocks fuel (ws.drop 16)

/-- Extend a 16-word block to the 64-word message schedule. -/
def extendWords (ws : List Nat) : List Nat :=
  (List.range 48).foldl
    (fun acc _ =>
      let n := acc.length
      acc ++ [(smallSigma1 (acc.getD (n - 2) 0) + acc.getD (n - 7) 0 +
               smallSigma0 (acc.getD (n - 15) 0) + acc.getD (n - 16) 0) % pow32])
    ws

/-- One SHA-256 compression round: `kw` is the pair of round constant and
schedule word; the state is the list `[a,b,c,d,e,f,g,h]`. -/
def sha256Round (st : List Nat) (kw : Nat × Nat) : List Nat :=
  let a := st.getD 0 0
  let b := st.getD 1 0
  let c := st.getD 2 0
  let d := st.getD 3 0
  let e := st.getD 4 0
  let f := st.getD 5 0
  let g := st.getD 6 0
  let h := st.getD 7 0
  let t1 := (h + bigSigma1 e + chFn e f g + kw.1 + kw.2) % pow32
  let t2 := (bigSigma0 a + majFn a b c) % pow32
  [(t1 + t2) % pow32, a, b, c, (d + t1) % pow32, e, f, g]

/-- Compress one 16-word block into the running hash state. -/
def processBlock (h : List Nat) (block : List Nat) : List Nat :=
  let w := extendWords block
  let st := (roundK.zip w).foldl sha256Round h
  (h.zip st).map (fun p => (p.1 + p.2) % pow32)

/-- The eight 32-bit words of the SHA-256 digest of a byte list. -/
def sha256Words (msg : List Nat) : List Nat :=
  let ws := bytesToWords (padBytes msg)
  (toBlocks ws.length ws).foldl processBlock initH

/-- Lowercase hex digit for a nibble: `0`-`9` then `a`-`f`. -/
def hexDigit (n : Nat) : Char :=
  if n < 10 then Char.ofNat (48 + n) else Char.ofNat (87 + n)

/-- Lowercase hexadecimal rendering of one 32-bit word (8 digits). -/
def wordHex (w : Nat) : List Char :=
  (List.range 8).map (fun i => hexDigit (w / 2 ^ (4 * (7 - i)) % 16))

/-- Embedding of `hexdigest()`: the 64-character lowercase hex string of the digest. -/
def sha256Hex (msg : List Nat) : String :=
  String.mk ((sha256Words msg).flatMap wordHex)

/-- UTF-8 encoding of one code point (embedding of `str.encode()` per
character). -/
def utf8Char (n : Nat) : List Nat :=
  if n < 128 then [n]
  else if n < 2048 then [192 + n / 64, 128 + n % 64]
  else if n < 65536 then [224 + n / 4096, 128 + n / 64 % 64, 128 + n % 64]
  else [240 + n / 262144, 128 + n / 4096 % 64, 128 + n / 64 % 64, 128 + n % 64]

/-- Embedding of `password.encode()`: the UTF-8 bytes of a string. -/
def encodeStr (s : String) : List Nat :=
  s.data.flatMap (fun c => utf8Char c.toNat)

/-- Embedding of `AuthManager.hash_password`: SHA-256 hex digest of the UTF-8 encoded
password. -/
def hash_password (password : String) : String :=
  sha256Hex (encodeStr password)

/-! ## Signed timed tokens

`generate_token` and `validate_token` delegate to
`itsdangerous.URLSafeTimedSerializer(secret_key)` with `salt="auth_salt"`:
the serializer's code is not part of this repository, so the wire format is
modelled from the spec.

Modelled from the spec (§4.3, §6 "Token wire format"): a token is a URL-safe
string `payload ++ "." ++ timestamp ++ "." ++ signature`; the payload encodes
the subject, the timestamp is the issuance time, and the signature is a keyed
MAC over `payload ++ "." ++ timestamp` derived from the shared secret and the
fixed salt.  The spec requires that "signature verification rejects any
payload modification", so the MAC is modelled as ideal: a keyed encoding that
is injective in the signed message.  The payload and signature encodings use
an escape code that keeps them free of the separator `'.'` and of the
signature's leading marker `'!'`. -/

/-- One character of the dot-free escape code: `'.'`, `'!'` and the escape
lead `'\\'` become two-character sequences, all other characters stand for
themselves. -/
def escChar (c : Char) : List Char :=
  if c = '.' then ['\\', 'd']
  else if c = '!' then ['\\', 'b']
  else if c = '\\' then ['\\', '\\'] else [c]

/-- Dot-free, bang-free injective encoding of a character list. -/
def esc (cs : List Char) : List Char := cs.flatMap escChar

/-- Decoder of `esc`; `none` on byte sequences that are not a code word
stream (a dangling escape, or a bare `'.'`/`'!'`). -/
def unesc : List Char → Option (List Char)
  | [] => some []
  | c :: rest =>
    if c = '\\' then
      match rest with
      | [] => none
      | e :: rest2 =>
        if e = 'd' then (unesc rest2).map (fun l => '.' :: l)
        else if e = 'b' then (unesc rest2).map (fun l => '!' :: l)
        else if e = '\\' then (unesc rest2).map (fun l => '\\' :: l)
        else none
    else if c = '.' ∨ c = '!' then none
    else (unesc rest).map (fun l => c :: l)

/-- Unary issuance-timestamp encoding: `n` is rendered as `n + 1` copies of
`'t'` (nonempty, dot-free, bang-free). -/
def tsEnc (n : Nat) : List Char := 't' :: List.replicate n 't'

/-- Decoder of `tsEnc`. -/
def parseTs : List Char → Option Nat
  | [] => none
  | c :: rest =>
    if c = 't' ∧ rest.all (fun x => x = 't') then some rest.length else none

/-- The part of the modelled signature after its leading marker: the keyed
material (secret, salt, signed message), each escaped, separated by `'|'`. -/
def signBody (secret salt : String) (msg : List Char) : List Char :=
  esc secret.data ++ '|' :: (esc salt.data ++ '|' :: esc msg)

/-- Modelled from the spec: the serializer's keyed signature (HMAC in
`itsdangerous`) as an ideal MAC — for a fixed secret and salt it is injective
in the signed message, so verification rejects any payload modification, as
§6 requires.  Its output starts with `'!'` and is otherwise dot-free and
bang-free. -/
def signChars (secret salt : String) (msg : List Char) : List Char :=
  '!' :: signBody secret salt msg

/-- The fixed namespacing salt of `generate_token`/`validate_token`. -/
def auth_salt : String := "auth_salt"

/-- The signed part of a token: encoded payload, `'.'`, encoded issuance
timestamp. -/
def signedHead (user_id : String) (now : Nat) : List Char :=
  esc user_id.data ++ '.' :: tsEnc now

/-- Embedding of `serializer.dumps(user_id, salt="auth_salt")` at clock value `now`. -/
def serializer_dumps (secret : String) (now : Nat) (user_id : String) : String :=
  let head := signedHead user_id now
  String.mk (head ++ '.' :: signChars secret auth_salt head)

/-- Embedding of `AuthManager.generate_token`: the `expires_in` parameter is accepted and
ignored, exactly as in the source (`dumps` is called without it). -/
def generate_token (secret : String) (now : Nat) (user_id : String)
    (expires_in : Nat := 3600) : String :=
  serializer_dumps secret now user_id

/-- The exceptions `serializer.loads` can raise. -/
inductive TokenErr where
  | badSignature : TokenErr
  | badTimeStamp : TokenErr
  | signatureExpired : TokenErr
  | badPayload : TokenErr
deriving DecidableEq

/-- Split a character list at its rightmost `'.'`, as the serializer does to
separate the signature; `none` when no `'.'` occurs. -/
def rsplitDot : List Char → Option (List Char × List Char)
  | [] => none
  | c :: cs =>
    match rsplitDot cs with
    | some (h, s) => some (c :: h, s)
    | none => if c = '.' then some ([], cs) else none

/-- Embedding of `serializer.loads(token, salt="auth_salt", max_age=max_age)` at clock
value `now`: check the signature over everything left of the rightmost dot,
then parse the timestamp, check the age, and decode the payload.  Each
failure raises (returns `.error`). -/
def serializer_loads (secret : String) (now : Nat) (token : String)
    (max_age : Nat) : Except TokenErr String :=
  match rsplitDot token.data with
  | none => .error .badSignature
  | some (head, sig) =>
    if sig = signChars secret auth_salt head then
      match rsplitDot head with
      | none => .error .badTimeStamp
      | some (payload, tsPart) =>
        match parseTs tsPart with
        | none => .error .badTimeStamp
        | some ts =>
          if max_age < now - ts then .error .signatureExpired
          else
            match unesc payload with
            | none => .error .badPayload
            | some cs => .ok (String.mk cs)
    else .error .badSignature

/-- Embedding of `AuthManager.validate_token`: `try: return loads(...) except: return
None`. -/
def validate_token (secret : String) (now : Nat) (token : String)
    (max_age : Nat := 3600) : Option String :=
  match serializer_loads secret now token max_age with
  | .ok s => some s
  | .error _ => none

/-! ## Application state: cookies and the error side channel

`EncryptedCookieManager` is not part of this repository.  Modelled from the
spec (§4.4): an opaque namespaced key-value store with `set`, `get` and
`clear`; `save()` commits synchronously and is modelled as the identity on
the abstract store.  `st.error` is modelled as an append-only list of
diagnostics. -/

structure AppState where
  cookies : List (String × String)
  errors : List String
deriving DecidableEq

/-- Embedding of `AuthManager.set_cookie`: `self.cookie_manager[key] = value` followed by
`save()`; later bindings shadow earlier ones. -/
def set_cookie (st : AppState) (key value : String) : AppState :=
  { st with cookies := (key, value) :: st.cookies }

/-- Embedding of `AuthManager.get_cookie`: `self.cookie_manager.get(key)`. -/
def get_cookie (st : AppState) (key : String) : Option String :=
  (st.cookies.find? (fun kv => kv.1 == key)).map (fun kv => kv.2)

/-- Embedding of `AuthManager.logout`: `self.cookie_manager.clear()` followed by
`save()`. -/
def logout (st : AppState) : AppState :=
  { st with cookies := [] }

/-! ## Credential verification -/

/-- Outcome of `pyodbc.connect(...)` / `cursor.execute(...)` /
`cursor.fetchone()`: the database backend either raises (message `e`) or
yields the `Users` table's rows as (username, password-hash) pairs, of which
`fetchone` returns the first one matching the parameterized WHERE clause. -/
def usersQuery (db : Except String (List (String × String)))
    (username hashed : String) : Except String (Option (String × String)) :=
  match db with
  | .error e => .error e
  | .ok rows => .ok ((rows.filter (fun r => r.1 == username && r.2 == hashed)).head?)

/-- Embedding of `AuthManager.verify_user`: hash the password, query for an exact match,
return whether a row was found; any backend exception is caught, reported via
`st.error`, and turned into `False`. -/
def verify_user (db : Except String (List (String × String)))
    (st : AppState) (username password : String) : Bool × AppState :=
  let hashed := hash_password password
  match usersQuery db username hashed with
  | .ok row => (row.isSome, st)
  | .error e =>
      (false, { st with errors := st.errors ++ ["Error verifying user: " ++ e] })

/-- Modelled from the spec: the source class has no `login` method; §4.5
specifies `login(username, plaintext)` as: call verify; on true, generate a
token for the username, persist it under the session key, and return it; on
false, return null and perform no state change. -/
def login (db : Except String (List (String × String))) (secret : String)
    (now : Nat) (cookie_key : String) (st : AppState)
    (username password : String) : Option String × AppState :=
  let vr := verify_user db st username password
  if vr.1 then
    let token := generate_token secret now username
    (some token, set_cookie vr.2 cookie_key token)
  else (none, vr.2)

/-! ## Properties of the escape code and the wire format -/

/-- Known-answer test: SHA-256 of the empty string. -/
theorem hash_password_empty_vector :
    hash_password "" =
      "e3b0c44298fc1c149afbf4c8996fb92427ae41e4649b934ca495991b7852b855" := by
  decide

/-- Known-answer test: SHA-256 of `"abc"` (FIPS 180-4 appendix vector). -/
theorem hash_password_abc_vector :
    hash_password "abc" =
      "ba7816bf8f01cfea414140de5dae2223b00361a396177a9cb410ff61f20015ad" := by
  decide

theorem not_mem_escChar_dot (c : Char) : '.' ∉ escChar c := by
  unfold escChar
  split_ifs with h1 h2 h3
  · decide
  · decide
  · decide
  · simp only [List.mem_singleton]
    exact fun h => h1 h.symm

theorem not_mem_escChar_bang (c : Char) : '!' ∉ escChar c := by
  unfold escChar
  split_ifs with h1 h2 h3
  · decide
  · decide
  · decide
  · simp only [List.mem_singleton]
    exact fun h => h2 h.symm

theorem not_mem_esc_dot (cs : List Char) : '.' ∉ esc cs := by
  unfold esc; intro h
  rcases List.mem_flatMap.mp h with ⟨a, _, ha⟩
  exact not_mem_escChar_dot a ha

theorem not_mem_esc_bang (cs : List Char) : '!' ∉ esc cs := by
  unfold esc; intro h
  rcases List.mem_flatMap.mp h with ⟨a, _, ha⟩
  exact not_mem_escChar_bang a ha

theorem unesc_esc (cs : List Char) : unesc (esc cs) = some cs := by
  induction cs with
  | nil => rfl
  | cons c cs ih =>
    show unesc (escChar c ++ esc cs) = some (c :: cs)
    by_cases h1 : c = '.'
    · subst h1; simp [escChar, unesc, ih]
    · by_cases h2 : c = '!'
      · subst h2; simp [escChar, unesc, ih]
      · by_cases h3 : c = '\\'
        · subst h3; simp [escChar, unesc, ih]
        · have he : escChar c = [c] := by simp [escChar, h1, h2, h3]
          rw [he, List.singleton_append, unesc.eq_def]
          simp [h1, h2, h3, ih]

theorem esc_injective {cs ds : List Char} (h : esc cs = esc ds) : cs = ds := by
  have h1 := unesc_esc cs
  rw [h, unesc_esc ds] at h1
  exact (Option.some.injEq _ _ ▸ h1).symm

theorem tsEnc_ne_nil (n : Nat) : tsEnc n ≠ [] := by simp [tsEnc]

theorem head_tsEnc (n : Nat) : (tsEnc n).head (tsEnc_ne_nil n) = 't' := rfl

theorem not_mem_tsEnc_dot (n : Nat) : '.' ∉ tsEnc n := by
  simp [tsEnc, List.mem_replicate]

theorem parseTs_tsEnc (n : Nat) : parseTs (tsEnc n) = some n := by
  simp [tsEnc, parseTs, List.all_eq_true, List.mem_replicate]

theorem rsplitDot_eq_none {cs : List Char} (h : '.' ∉ cs) : rsplitDot cs = none := by
  induction cs with
  | nil => rfl
  | cons c cs ih =>
    rw [List.mem_cons, not_or] at h
    simp [rsplitDot, ih h.2, Ne.symm h.1]

theorem rsplitDot_append (xs ys : List Char) (h : '.' ∉ ys) :
    rsplitDot (xs ++ '.' :: ys) = some (xs, ys) := by
  induction xs with
  | nil => simp [rsplitDot, rsplitDot_eq_none h]
  | cons x xs ih => simp [rsplitDot, ih]

theorem not_mem_signBody_dot (secret salt : String) (msg : List Char) :
    '.' ∉ signBody secret salt msg := by
  unfold signBody; intro h
  simp only [List.mem_append, List.mem_cons] at h
  rcases h with h | h | h | h | h
  · exact not_mem_esc_dot _ h
  · exact absurd h (by decide)
  · exact not_mem_esc_dot _ h
  · exact absurd h (by decide)
  · exact not_mem_esc_dot _ h

theorem not_mem_signBody_bang (secret salt : String) (msg : List Char) :
    '!' ∉ signBody secret salt msg := by
  unfold signBody; intro h
  simp only [List.mem_append, List.mem_cons] at h
  rcases h with h | h | h | h | h
  · exact not_mem_esc_bang _ h
  · exact absurd h (by decide)
  · exact not_mem_esc_bang _ h
  · exact absurd h (by decide)
  · exact not_mem_esc_bang _ h

theorem not_mem_signChars_dot (secret salt : String) (msg : List Char) :
    '.' ∉ signChars secret salt msg := by
  unfold signChars; intro h
  rcases List.mem_cons.mp h with h | h
  · exact absurd h (by decide)
  · exact not_mem_signBody_dot _ _ _ h

theorem signChars_injective {secret salt : String} {m1 m2 : List Char}
    (h : signChars secret salt m1 = signChars secret salt m2) : m1 = m2 := by
  unfold signChars signBody at h
  injection h with h0 h1
  have h2 := List.append_cancel_left h1
  injection h2 with h3 h4
  have h5 := List.append_cancel_left h4
  injection h5 with h6 h7
  exact esc_injective h7

theorem mk_data (s : String) : String.mk s.data = s := rfl

theorem generate_token_data (secret : String) (now : Nat) (user_id : String)
    (expires_in : Nat) :
    (generate_token secret now user_id expires_in).data =
      signedHead user_id now ++
        '.' :: signChars secret auth_salt (signedHead user_id now) := rfl

/-- What `loads` does to a genuinely issued token: the only thing that can
still go wrong is expiry. -/
theorem serializer_loads_dumps (secret user_id : String) (issued now w : Nat) :
    serializer_loads secret now (serializer_dumps secret issued user_id) w =
      if w < now - issued then .error .signatureExpired else .ok user_id := by
  unfold serializer_loads serializer_dumps signedHead
  rw [rsplitDot_append _ _ (not_mem_signChars_dot secret auth_salt _)]
  simp only [if_pos rfl]
  rw [rsplitDot_append _ _ (not_mem_tsEnc_dot issued)]
  simp only [parseTs_tsEnc, unesc_esc, mk_data, if_true, eq_self_iff_true]

/-- C1: for every subject string and every validity window at least the time
elapsed between issuance and validation, validating a generated token
returns the subject. -/
theorem C1_token_roundtrip (secret user_id : String)
    (issued now w expires_in : Nat) (h : now - issued ≤ w) :
    validate_token secret now (generate_token secret issued user_id expires_in)
      w = some user_id := by
  unfold validate_token generate_token
  rw [serializer_loads_dumps, if_neg (by omega)]

/-- C1 witness: a concrete issuance at time 5, validated at time 6 with the
default window. -/
theorem C1_token_roundtrip_witness :
    (6 : Nat) - 5 ≤ 3600 ∧
      validate_token "sek" 6 (generate_token "sek" 5 "alice" 3600) 3600 =
        some "alice" :=
  ⟨by decide, C1_token_roundtrip "sek" "alice" 5 6 3600 3600 (by decide)⟩

/-- C2: whenever the elapsed time since issuance exceeds `max_age`, validation
returns `none`, whatever `expires_in` was passed at issuance. -/
theorem C2_token_expiry (secret user_id : String)
    (issued now m expires_in : Nat) (h : m < now - issued) :
    validate_token secret now (generate_token secret issued user_id expires_in)
      m = none := by
  unfold validate_token generate_token
  rw [serializer_loads_dumps, if_pos h]

/-- C2 witness: the spec's concrete scenario — issue at 0, validate 2 seconds
later with `max_age = 1` (and an `expires_in` of 9999 to show it is
irrelevant). -/
theorem C2_token_expiry_witness :
    (1 : Nat) < 2 - 0 ∧
      validate_token "sek" 2 (generate_token "sek" 0 "alice" 9999) 1 = none :=
  ⟨by decide, C2_token_expiry "sek" "alice" 0 2 1 9999 (by decide)⟩

/-- C7: `validate_token` is total — it returns exactly the `Option` collapse
of the serializer's fallible result, so every raised failure (bad signature,
undecodable input, expiry) becomes the single invalid result `none` and no
exception reaches the caller. -/
theorem C7_validate_token_total (secret t : String) (now m : Nat) :
    validate_token secret now t m = (serializer_loads secret now t m).toOption := by
  unfold validate_token Except.toOption
  cases serializer_loads secret now t m <;> rfl

/-- C8: issuance ignores the `expires_in` parameter — the same subject and
issuance instant give the same token for any two values of it. -/
theorem C8_generate_ignores_validity (secret user_id : String)
    (now w1 w2 : Nat) :
    generate_token secret now user_id w1 = generate_token secret now user_id w2 := rfl

/-- Helper: `verify_user` never touches the cookie store, on any path. -/
theorem verify_user_cookies (db : Except String (List (String × String)))
    (st : AppState) (u p : String) :
    ((verify_user db st u p).2).cookies = st.cookies := by
  cases db <;> rfl

/-- C3: `verify_user` returns `true` exactly when the backend does not raise
and some row of `Users` equals `(username, hash_password password)`; in
particular it returns `false` whenever no row carries that username together
with that password hash (wrong password, unknown username, empty
password). -/
theorem C3_verify_user_iff (db : Except String (List (String × String)))
    (st : AppState) (u p : String) :
    ((verify_user db st u p).1 = true ↔
      ∃ rows, db = .ok rows ∧ ∃ r ∈ rows, r.1 = u ∧ r.2 = hash_password p) ∧
    (∀ rows, db = .ok rows →
      (∀ r ∈ rows, r.1 ≠ u ∨ r.2 ≠ hash_password p) →
      (verify_user db st u p).1 = false) := by
  constructor
  · cases db <;>
      simp [verify_user, usersQuery, Option.isSome_iff_ne_none,
        List.head?_eq_none_iff, List.filter_eq_nil_iff]
  · intro rows hdb hno
    subst hdb
    simp [verify_user, usersQuery, Option.isSome_iff_ne_none,
      List.head?_eq_none_iff, List.filter_eq_nil_iff]
    intro a b hr h1
    rcases hno (a, b) hr with h | h
    · exact absurd h1 h
    · exact h

/-- C3 witness: with the single row (alice, hash of "right"), the wrong
password, an unknown username, and the empty password all verify `false`,
and the right pair verifies `true`. -/
theorem C3_verify_user_iff_witness :
    ((verify_user (.ok [("alice", hash_password "right")]) (AppState.mk [] [])
        "alice" "wrong").1 = false) ∧
    ((verify_user (.ok [("alice", hash_password "right")]) (AppState.mk [] [])
        "bob" "right").1 = false) ∧
    ((verify_user (.ok [("alice", hash_password "right")]) (AppState.mk [] [])
        "alice" "").1 = false) ∧
    ((verify_user (.ok [("alice", hash_password "right")]) (AppState.mk [] [])
        "alice" "right").1 = true) :=
  ⟨(C3_verify_user_iff (.ok [("alice", hash_password "right")])
      (AppState.mk [] []) "alice" "wrong").2 _ rfl (by decide),
   (C3_verify_user_iff (.ok [("alice", hash_password "right")])
      (AppState.mk [] []) "bob" "right").2 _ rfl (by decide),
   (C3_verify_user_iff (.ok [("alice", hash_password "right")])
      (AppState.mk [] []) "alice" "").2 _ rfl (by decide),
   (C3_verify_user_iff (.ok [("alice", hash_password "right")])
      (AppState.mk [] []) "alice" "right").1.mpr
     ⟨_, rfl, ("alice", hash_password "right"), by decide, rfl, rfl⟩⟩

/-- C6: a raised backend error is caught: `verify_user` returns `false`, the
diagnostic is emitted on the error side channel, and nothing else of the
state changes — no exception escapes. -/
theorem C6_verify_user_backend_error (e : String) (st : AppState) (u p : String) :
    verify_user (.error e) st u p =
      (false, AppState.mk st.cookies (st.errors ++ ["Error verifying user: " ++ e])) := rfl

/-- C9: setting a cookie then reading the same key yields the value just
set, and after `logout` every key reads as absent. -/
theorem C9_session_roundtrip (st : AppState) (k v k' : String) :
    get_cookie (set_cookie st k v) k = some v ∧ get_cookie (logout st) k' = none := by
  constructor
  · simp [get_cookie, set_cookie]
  · rfl

/-- C10: `verify_user` leaves the cookie store exactly as it was, on the
match, no-match and backend-error paths alike. -/
theorem C10_verify_user_frame (db : Except String (List (String × String)))
    (st : AppState) (u p : String) :
    ((verify_user db st u p).2).cookies = st.cookies :=
  verify_user_cookies db st u p

/-- C5: the spec-modelled `login` orchestration — on successful verification
it returns the freshly generated token and persists it in the session store;
on failed verification it returns `none` and the session store is
unchanged. -/
theorem C5_login_orchestration (db : Except String (List (String × String)))
    (secret : String) (now : Nat) (ck : String) (st : AppState) (u p : String) :
    ((verify_user db st u p).1 = true →
      login db secret now ck st u p =
        (some (generate_token secret now u),
         set_cookie (verify_user db st u p).2 ck (generate_token secret now u))) ∧
    ((verify_user db st u p).1 = false →
      login db secret now ck st u p = (none, (verify_user db st u p).2) ∧
      ((login db secret now ck st u p).2).cookies = st.cookies) := by
  constructor
  · intro h; simp [login, h]
  · intro h
    constructor
    · simp [login, h]
    · simp [login, h, verify_user_cookies]

/-- C5 witness: a concrete success (right password persists the token) and a
concrete failure (wrong password returns `none` and leaves the store
empty). -/
theorem C5_login_orchestration_witness :
    ((verify_user (.ok [("alice", hash_password "pw123")]) (AppState.mk [] [])
        "alice" "pw123").1 = true ∧
      login (.ok [("alice", hash_password "pw123")]) "sek" 5 "auth_cookie"
          (AppState.mk [] []) "alice" "pw123" =
        (some (generate_token "sek" 5 "alice"),
         set_cookie
           (verify_user (.ok [("alice", hash_password "pw123")])
             (AppState.mk [] []) "alice" "pw123").2
           "auth_cookie" (generate_token "sek" 5 "alice"))) ∧
    ((verify_user (.ok [("alice", hash_password "pw123")]) (AppState.mk [] [])
        "alice" "wrong-pw").1 = false ∧
      login (.ok [("alice", hash_password "pw123")]) "sek" 5 "auth_cookie"
          (AppState.mk [] []) "alice" "wrong-pw" =
        (none,
         (verify_user (.ok [("alice", hash_password "pw123")])
           (AppState.mk [] []) "alice" "wrong-pw").2) ∧
      ((login (.ok [("alice", hash_password "pw123")]) "sek" 5 "auth_cookie"
          (AppState.mk [] []) "alice" "wrong-pw").2).cookies =
        (AppState.mk [] []).cookies) :=
  ⟨⟨by decide,
    (C5_login_orchestration (.ok [("alice", hash_password "pw123")]) "sek" 5
        "auth_cookie" (AppState.mk [] []) "alice" "pw123").1 (by decide)⟩,
   ⟨by decide,
    (C5_login_orchestration (.ok [("alice", hash_password "pw123")]) "sek" 5
        "auth_cookie" (AppState.mk [] []) "alice" "wrong-pw").2 (by decide)⟩⟩

theorem data_mk (l : List Char) : (String.mk l).data = l := rfl

theorem mem_of_mem_set {x c : Char} {l : List Char} {j : Nat}
    (h : x ∈ l.set j c) : x ∈ l ∨ x = c := by
  by_cases hj : j < l.length
  · rw [List.set_eq_take_append_cons_drop, if_pos hj] at h
    rcases List.mem_append.mp h with h | h
    · exact Or.inl (List.take_subset _ _ h)
    · rcases List.mem_cons.mp h with h | h
      · exact Or.inr h
      · exact Or.inl (List.drop_subset _ _ h)
  · rw [List.set_eq_of_length_le (Nat.le_of_not_lt hj)] at h
    exact Or.inl h

/-- Helper: `loads` raises `BadSignature` whenever the part right of the rightmost
dot is not the signature of the part left of it. -/
theorem serializer_loads_badSig {secret : String} {now m : Nat} {t : String}
    {head sig : List Char} (hsplit : rsplitDot t.data = some (head, sig))
    (hne : sig ≠ signChars secret auth_salt head) :
    serializer_loads secret now t m = .error .badSignature := by
  unfold serializer_loads
  rw [hsplit]
  exact if_neg hne

/-- Every raised `loads` failure is caught by `validate_token`. -/
theorem validate_token_none {secret : String} {now m : Nat} {t : String}
    {e : TokenErr} (h : serializer_loads secret now t m = .error e) :
    validate_token secret now t m = none := by
  unfold validate_token
  rw [h]

/-- C4: changing any single character of a generated token (to a genuinely
different character, so that the string changes) makes validation return
`none`, for every clock value and window. -/
theorem C4_tamper_rejection (secret user_id : String)
    (issued expires_in now m i : Nat) (c : Char)
    (hmod : (generate_token secret issued user_id expires_in).data.set i c ≠
            (generate_token secret issued user_id expires_in).data) :
    validate_token secret now
      (String.mk ((generate_token secret issued user_id expires_in).data.set i c))
      m = none := by
  set H : List Char := signedHead user_id issued with hHdef
  set SG : List Char := signChars secret auth_salt H with hSGdef
  have htok : (generate_token secret issued user_id expires_in).data =
      H ++ '.' :: SG := rfl
  rw [htok] at hmod ⊢
  have hSGdot : '.' ∉ SG := not_mem_signChars_dot secret auth_salt H
  rcases Nat.lt_trichotomy i H.length with hi | hi | hi
  · -- the modified character lies in the signed head
    have hset : (H ++ '.' :: SG).set i c = H.set i c ++ '.' :: SG := by
      rw [List.set_append, if_pos hi]
    have hne : H.set i c ≠ H := fun he => hmod (by rw [hset, he])
    rw [hset]
    refine validate_token_none (serializer_loads_badSig
      (rsplitDot_append _ _ hSGdot) ?_)
    intro heq
    have heq2 : signChars secret auth_salt H =
        signChars secret auth_salt (H.set i c) := heq
    exact hne (signChars_injective heq2).symm
  · -- the modified character is the separator before the signature
    have hset : (H ++ '.' :: SG).set i c = H ++ c :: SG := by
      rw [List.set_append, if_neg (by omega), show i - H.length = 0 by omega,
        List.set_cons_zero]
    have hcne : c ≠ '.' := fun hc => hmod (by rw [hset, hc])
    rw [hset]
    have hdot2 : '.' ∉ tsEnc issued ++ c :: SG := by
      intro h
      rcases List.mem_append.mp h with h | h
      · exact not_mem_tsEnc_dot issued h
      · rcases List.mem_cons.mp h with h | h
        · exact hcne h.symm
        · exact hSGdot h
    have hsplit : rsplitDot (H ++ c :: SG) =
        some (esc user_id.data, tsEnc issued ++ c :: SG) := by
      rw [hHdef]
      show rsplitDot ((esc user_id.data ++ '.' :: tsEnc issued) ++ c :: SG) = _
      rw [List.append_assoc, List.cons_append]
      exact rsplitDot_append _ _ hdot2
    refine validate_token_none (serializer_loads_badSig hsplit ?_)
    rw [show tsEnc issued ++ c :: SG =
        't' :: (List.replicate issued 't' ++ c :: SG) from rfl]
    intro heq
    injection heq with h1 h2
    exact absurd h1 (by decide)
  · -- the modified character lies in the signature
    obtain ⟨j, rfl⟩ : ∃ j, i = H.length + j + 1 := ⟨i - H.length - 1, by omega⟩
    have hset : (H ++ '.' :: SG).set (H.length + j + 1) c =
        H ++ '.' :: SG.set j c := by
      rw [List.set_append, if_neg (by omega),
        show H.length + j + 1 - H.length = j + 1 by omega, List.set_cons_succ]
    have hne : SG.set j c ≠ SG := fun he => hmod (by rw [hset, he])
    have hjlt : j < SG.length := by
      by_contra hge
      exact hne (List.set_eq_of_length_le (Nat.le_of_not_lt hge))
    rw [hset]
    by_cases hc : c = '.'
    · -- the new character is a dot: the split point moves into the signature
      subst hc
      have htd : SG.set j '.' = SG.take j ++ '.' :: SG.drop (j + 1) := by
        rw [List.set_eq_take_append_cons_drop, if_pos hjlt]
      have hdropdot : '.' ∉ SG.drop (j + 1) :=
        fun h => hSGdot (List.drop_subset _ _ h)
      have hsplit : rsplitDot (H ++ '.' :: SG.set j '.') =
          some (H ++ '.' :: SG.take j, SG.drop (j + 1)) := by
        rw [htd, show H ++ '.' :: (SG.take j ++ '.' :: SG.drop (j + 1)) =
            (H ++ '.' :: SG.take j) ++ '.' :: SG.drop (j + 1) by
          rw [List.append_assoc, List.cons_append]]
        exact rsplitDot_append _ _ hdropdot
      refine validate_token_none (serializer_loads_badSig hsplit ?_)
      have hdropbody : SG.drop (j + 1) = (signBody secret auth_salt H).drop j := by
        rw [hSGdef]
        show ('!' :: signBody secret auth_salt H).drop (j + 1) = _
        rw [List.drop_succ_cons]
      rw [hdropbody]
      intro heq
      cases hd : (signBody secret auth_salt H).drop j with
      | nil => rw [hd] at heq; exact absurd heq.symm (by simp [signChars])
      | cons d ds =>
        rw [hd] at heq
        injection heq with h1 h2
        have hdmem : d ∈ signBody secret auth_salt H :=
          List.drop_subset _ _ (by rw [hd]; exact List.mem_cons_self d ds)
        rw [h1] at hdmem
        exact not_mem_signBody_bang _ _ _ hdmem
    · -- the new character is not a dot: the signature is damaged in place
      have hdot : '.' ∉ SG.set j c := by
        intro h
        rcases mem_of_mem_set h with h | h
        · exact hSGdot h
        · exact hc h.symm
      refine validate_token_none (serializer_loads_badSig
        (rsplitDot_append _ _ hdot) ?_)
      intro heq
      exact hne (heq.trans hSGdef.symm)

/-- C4 witness: flipping the first character of a concrete token to `'Q'`
invalidates it. -/
theorem C4_tamper_rejection_witness :
    (generate_token "sek" 5 "alice" 3600).data.set 0 'Q' ≠
        (generate_token "sek" 5 "alice" 3600).data ∧
      validate_token "sek" 6
        (String.mk ((generate_token "sek" 5 "alice" 3600).data.set 0 'Q'))
        3600 = none :=
  ⟨by decide, C4_tamper_rejection "sek" "alice" 5 3600 6 3600 0 'Q' (by decide)⟩

end AuthManager
